import Mathlib

/-!
Verification development for the dark-pool flow analysis pipeline
(`src/app.py`).  The pipeline fetches per-day, per-facility short-volume
files, parses them (dropping symbol-less rows, coercing non-numeric volume
cells to zero), reconciles the facilities of one day by a per-symbol sum,
folds the daily totals over the date range by another per-symbol sum,
derives buy/sell metrics, and filters/ranks the result into top-15 buy- and
sell-pressure lists.

Modelling conventions:
* Volumes are `Int` (pandas integer columns).
* IEEE floating-point values arising from pandas division are modelled by
  `PFloat`: a rational, `+inf`, `-inf`, or `NaN`.  The rationals stand in
  for finite doubles; no settled claim depends on binary rounding.
* A failed HTTP fetch is `none`; a successful response body is a list of
  raw rows (the CSV layer, including the header-less fallback re-parse of
  app.py lines 57-59, is abstracted to the row list it yields).
* pandas `groupby('Symbol').agg('sum')` (with its default `sort=True`) is
  modelled by `groupSum`: distinct symbols in ascending code-point order,
  each paired with the sums over its group.
-/

namespace DarkPool

/-- A pandas/numpy double as it occurs in this pipeline: a finite value
(modelled as a rational), positive or negative infinity, or NaN. -/
inductive PFloat where
  | fin (q : ℚ)
  | inf
  | neginf
  | nan
  deriving DecidableEq

/-- Division as numpy true-division performs it on the (always finite)
operands occurring in this pipeline: `a / 0` is `+inf`, `-inf`, or `NaN`
according to the sign of `a`; otherwise the exact quotient.  Non-finite
operands do not occur in the pipeline and are mapped to `NaN`. -/
def PFloat.div : PFloat → PFloat → PFloat
  | .fin a, .fin b =>
    if b = 0 then
      if 0 < a then .inf else if a < 0 then .neginf else .nan
    else .fin (a / b)
  | _, _ => .nan

/-- pandas `.replace([float('inf')], c)`: only literal `+inf` is replaced. -/
def PFloat.replaceInf (x : PFloat) (c : ℚ) : PFloat :=
  match x with
  | .inf => .fin c
  | y => y

/-- pandas `.fillna(c)`: only `NaN` is replaced. -/
def PFloat.fillna (x : PFloat) (c : ℚ) : PFloat :=
  match x with
  | .nan => .fin c
  | y => y

/-- pandas elementwise `series > c`: any comparison with `NaN` is false. -/
def PFloat.gt (x : PFloat) (c : ℚ) : Bool :=
  match x with
  | .fin q => decide (c < q)
  | .inf => true
  | .neginf => false
  | .nan => false

/-- True exactly on finite values (neither infinite nor `NaN`). -/
def PFloat.isFinite : PFloat → Bool
  | .fin _ => true
  | _ => false

/-- One raw volume cell as `pd.to_numeric(col, errors='coerce')` sees it:
a numeric value, a non-numeric string, or a missing entry. -/
inductive Cell where
  | num (n : Int)
  | nonNumeric
  | missing
  deriving DecidableEq

/-- One row of a facility file after CSV splitting: the `Symbol` column
(`none` models a NaN symbol, e.g. a trailer line) and the two volume
cells.  The remaining columns are never read by the pipeline. -/
structure RawRow where
  symbol : Option String
  shortVolume : Cell
  totalVolume : Cell
  deriving DecidableEq

/-- A normalized record `{Symbol, ShortVolume, TotalVolume}` as appended
to `daily_frames` (app.py line 68). -/
structure FacilityRecord where
  symbol : String
  shortVolume : Int
  totalVolume : Int
  deriving DecidableEq

/-- Model of `pd.to_numeric(col, errors='coerce').fillna(0)` (app.py lines 64-65):
a numeric cell keeps its value (negative values included), a non-numeric
or missing cell becomes `NaN` and is then filled with 0. -/
def toNumeric : Cell → Int
  | .num n => n
  | .nonNumeric => 0
  | .missing => 0

/-- The record-normalization step of `fetch_daily_components`
(app.py lines 61-68): drop rows whose `Symbol` is missing
(`dropna(subset=['Symbol'])`), then coerce both volume columns. -/
def parseRecords (rows : List RawRow) : List FacilityRecord :=
  rows.filterMap fun r =>
    r.symbol.map fun s => ⟨s, toNumeric r.shortVolume, toNumeric r.totalVolume⟩

/-- Lexicographic code-point comparison of character lists, the order in
which pandas (Python string comparison) sorts group keys. -/
def lexLe : List Char → List Char → Bool
  | [], _ => true
  | _ :: _, [] => false
  | a :: as, b :: bs =>
    if a < b then true
    else if b < a then false
    else lexLe as bs

/-- Code-point comparison of symbols. -/
def symLe (a b : String) : Bool := lexLe a.data b.data

/-- The symbol order as a binary relation, used by the sort inside the
group-by model. -/
def symbolLE : String → String → Prop := fun a b => symLe a b = true

instance : DecidableRel symbolLE :=
  fun a b => inferInstanceAs (Decidable (symLe a b = true))

/-- Model of `df.groupby('Symbol').agg({'ShortVolume':'sum','TotalVolume':'sum'})`
(app.py lines 76 and 112): one output row per distinct symbol, keys in
ascending symbol order (pandas `sort=True` default), each key paired with
the per-group sums of the two projections. -/
def groupSum {α : Type} (sym : α → String) (f g : α → Int) (rows : List α) :
    List (String × Int × Int) :=
  (List.insertionSort symbolLE ((rows.map sym).dedup)).map fun s =>
    (s, ((rows.filter fun r => sym r = s).map f).sum,
        ((rows.filter fun r => sym r = s).map g).sum)

/-- One reconciled per-symbol total for one trading day (the rows of the
frame returned by `fetch_daily_components`). -/
structure DailySymbolTotal where
  symbol : String
  shortVolume : Int
  totalVolume : Int
  date : String
  deriving DecidableEq

/-- Model of `pd.to_datetime(date_str, format='%Y%m%d').strftime('%Y-%m-%d')`
(app.py line 79) on an 8-digit `YYYYMMDD` string. -/
def formatDate (date_str : String) : String :=
  String.mk (date_str.data.take 4 ++ '-' :: (date_str.data.drop 4).take 2
    ++ '-' :: date_str.data.drop 6)

/-- Model of `fetch_daily_components` (app.py lines 33-82) given the per-facility
fetch outcomes for one day: a failed fetch (timeout, non-200 status,
transport error) contributes nothing; each successful body is normalized
by `parseRecords`; if no facility succeeded the function returns `None`,
otherwise the concatenated frames are summed per symbol and stamped with
the reformatted date. -/
def fetch_daily_components (date_str : String)
    (responses : List (Option (List RawRow))) : Option (List DailySymbolTotal) :=
  let daily_frames := responses.filterMap fun r => r.map parseRecords
  if daily_frames.isEmpty then none
  else
    some ((groupSum (·.symbol) (·.shortVolume) (·.totalVolume)
      daily_frames.flatten).map fun t => ⟨t.1, t.2.1, t.2.2, formatDate date_str⟩)

/-- One row of the range summary after the metric columns have been added
(app.py lines 116-121). -/
structure RangeSymbolSummary where
  symbol : String
  shortVolume : Int
  totalVolume : Int
  buyVolume : Int
  sellVolume : Int
  buySellRatio : PFloat
  buyPct : PFloat
  sellPct : PFloat
  deriving DecidableEq

/-- Model of `(Buy Vol / Sell Vol.replace(0, 0.0001)).replace([float('inf')],
100.0).fillna(0)` (app.py line 119): a zero sell volume is replaced by
the epsilon `0.0001` before dividing; a literal `+inf` quotient is then
replaced by the sentinel `100.0`; a `NaN` quotient by `0`. -/
def buySellRatio (buyVol sellVol : Int) : PFloat :=
  let divisor : ℚ := if sellVol = 0 then 1 / 10000 else (sellVol : ℚ)
  (((PFloat.fin (buyVol : ℚ)).div (.fin divisor)).replaceInf 100).fillna 0

/-- The Metrics Calculator applied to one aggregated `(symbol,
shortVolume, totalVolume)` row (app.py lines 117-121): `Buy Vol :=
ShortVolume`, `Sell Vol := TotalVolume - ShortVolume`, the ratio of line
119, and the two percentage columns of lines 120-121 — which carry no
`fillna`, so a zero `TotalVolume` yields an infinite or `NaN` share. -/
def mkSummary (r : String × Int × Int) : RangeSymbolSummary :=
  let buyVol := r.2.1
  let sellVol := r.2.2 - r.2.1
  { symbol := r.1
    shortVolume := r.2.1
    totalVolume := r.2.2
    buyVolume := buyVol
    sellVolume := sellVol
    buySellRatio := buySellRatio buyVol sellVol
    buyPct := (PFloat.fin (buyVol : ℚ)).div (.fin (r.2.2 : ℚ))
    sellPct := (PFloat.fin (sellVol : ℚ)).div (.fin (r.2.2 : ℚ)) }

/-- The Range Aggregator (app.py line 112): group the retained daily
totals by symbol and sum both volume columns. -/
def aggRange (full_data : List DailySymbolTotal) : List (String × Int × Int) :=
  groupSum (·.symbol) (·.shortVolume) (·.totalVolume) full_data

/-- Model of `filtered_agg` (app.py lines 116-121): keep the aggregated rows with
`TotalVolume >= vol_threshold`, then add the metric columns. -/
def rangeSummaries (vol_threshold : Int) (full_data : List DailySymbolTotal) :
    List RangeSymbolSummary :=
  ((aggRange full_data).filter fun r => vol_threshold ≤ r.2.2).map mkSummary

/-- Model of `buy_list` (app.py line 140): rows with `BuyPct > 0.60`, sorted by
`Buy Vol` descending, first 15.  pandas `sort_values` uses an unstable
quicksort; the model uses a stable insertion sort — no theorem below
depends on the relative order of rows with equal keys. -/
def buy_list (agg : List RangeSymbolSummary) : List RangeSymbolSummary :=
  (List.insertionSort (fun a b => b.buyVolume ≤ a.buyVolume)
    (agg.filter fun r => r.buyPct.gt (3 / 5))).take 15

/-- Model of `sell_list` (app.py line 145): rows with `SellPct > 0.60`, sorted by
`Sell Vol` descending, first 15. -/
def sell_list (agg : List RangeSymbolSummary) : List RangeSymbolSummary :=
  (List.insertionSort (fun a b => b.sellVolume ≤ a.sellVolume)
    (agg.filter fun r => r.sellPct.gt (3 / 5))).take 15

/-- What the analysis block stores for the presentation layer. -/
structure RunOutput where
  full_data : List DailySymbolTotal
  filtered_agg : List RangeSymbolSummary
  deriving DecidableEq

/-- The driver loop and analysis block (app.py lines 87-129) given the
per-day outcomes of `fetch_daily_components`: days whose fetch returned
`None` are skipped; if the collected list `all_daily_totals` is empty the
`if all_daily_totals:` block is skipped entirely and nothing is produced
(`none`); otherwise the days are concatenated and summarized.  (The
unfiltered `raw_agg` of lines 126-128 feeds only the ETF-watchlist
display and is not modelled.) -/
def runAnalysis (vol_threshold : Int)
    (fetched : List (Option (List DailySymbolTotal))) : Option RunOutput :=
  let all_daily_totals := fetched.filterMap id
  if all_daily_totals.isEmpty then none
  else
    let full_data := all_daily_totals.flatten
    some ⟨full_data, rangeSummaries vol_threshold full_data⟩

/-! ### Order properties of the symbol comparison -/

theorem lexLe_total : ∀ as bs : List Char, lexLe as bs = true ∨ lexLe bs as = true := by
  intro as
  induction as with
  | nil => intro bs; left; rfl
  | cons a as ih =>
    intro bs
    cases bs with
    | nil => right; rfl
    | cons b bs =>
      by_cases h1 : a < b
      · left; simp [lexLe, h1]
      · by_cases h2 : b < a
        · right; simp [lexLe, h1, h2]
        · rcases ih bs with h | h
          · left; simp [lexLe, h1, h2, h]
          · right; simp [lexLe, h1, h2, h]

theorem lexLe_trans : ∀ as bs cs : List Char,
    lexLe as bs = true → lexLe bs cs = true → lexLe as cs = true := by
  intro as
  induction as with
  | nil => intro bs cs _ _; rfl
  | cons a as ih =>
    intro bs cs h1 h2
    cases bs with
    | nil => simp [lexLe] at h1
    | cons b bs =>
      cases cs with
      | nil => simp [lexLe] at h2
      | cons c cs =>
        simp only [lexLe] at h1 h2 ⊢
        by_cases hab : a < b
        · by_cases hbc : b < c
          · simp [lt_trans hab hbc]
          · by_cases hcb : c < b
            · simp [hbc, hcb] at h2
            · have hbc' : b = c := le_antisymm (not_lt.1 hcb) (not_lt.1 hbc)
              simp [hbc' ▸ hab]
        · by_cases hba : b < a
          · simp [hab, hba] at h1
          · have hab' : a = b := le_antisymm (not_lt.1 hba) (not_lt.1 hab)
            subst hab'
            by_cases hbc : a < c
            · simp [hbc]
            · by_cases hcb : c < a
              · simp [hbc, hcb] at h2
              · simp only [hab, hba, if_false] at h1
                simp only [hbc, hcb, if_false] at h2
                simp [hbc, hcb, ih bs cs h1 h2]

theorem lexLe_antisymm : ∀ as bs : List Char,
    lexLe as bs = true → lexLe bs as = true → as = bs := by
  intro as
  induction as with
  | nil =>
    intro bs _ h2
    cases bs with
    | nil => rfl
    | cons b bs => simp [lexLe] at h2
  | cons a as ih =>
    intro bs h1 h2
    cases bs with
    | nil => simp [lexLe] at h1
    | cons b bs =>
      simp only [lexLe] at h1 h2
      by_cases hab : a < b
      · simp [hab, not_lt_of_gt hab] at h2
      · by_cases hba : b < a
        · simp [hab, hba] at h1
        · have hab' : a = b := le_antisymm (not_lt.1 hba) (not_lt.1 hab)
          subst hab'
          simp only [hab, hba, if_false] at h1 h2
          rw [ih bs h1 h2]

instance : IsTotal String symbolLE :=
  ⟨fun a b => lexLe_total a.data b.data⟩

instance : IsTrans String symbolLE :=
  ⟨fun a b c => lexLe_trans a.data b.data c.data⟩

instance : IsAntisymm String symbolLE :=
  ⟨fun a b h1 h2 => String.ext (lexLe_antisymm a.data b.data h1 h2)⟩

/-! ### Structure of the group-by model -/

theorem groupSum_map_fst {α : Type} (sym : α → String) (f g : α → Int)
    (rows : List α) :
    (groupSum sym f g rows).map Prod.fst
      = List.insertionSort symbolLE ((rows.map sym).dedup) := by
  simp only [groupSum, List.map_map]
  exact (List.map_congr_left fun s _ => rfl).trans (List.map_id _)

theorem groupSum_nodup_fst {α : Type} (sym : α → String) (f g : α → Int)
    (rows : List α) : ((groupSum sym f g rows).map Prod.fst).Nodup := by
  rw [groupSum_map_fst]
  exact ((List.perm_insertionSort _ _).nodup_iff).mpr (List.nodup_dedup _)

theorem groupSum_perm {α : Type} (sym : α → String) (f g : α → Int)
    {l l' : List α} (h : l.Perm l') :
    groupSum sym f g l = groupSum sym f g l' := by
  unfold groupSum
  have hkeys : List.insertionSort symbolLE ((l.map sym).dedup)
      = List.insertionSort symbolLE ((l'.map sym).dedup) := by
    refine List.eq_of_perm_of_sorted ?_ (List.sorted_insertionSort _ _)
      (List.sorted_insertionSort _ _)
    exact ((List.perm_insertionSort _ _).trans ((h.map sym).dedup)).trans
      (List.perm_insertionSort _ _).symm
  rw [hkeys]
  refine List.map_congr_left fun s _ => ?_
  have h1 : ((l.filter fun r => sym r = s).map f).sum
      = ((l'.filter fun r => sym r = s).map f).sum :=
    ((h.filter _).map f).sum_eq
  have h2 : ((l.filter fun r => sym r = s).map g).sum
      = ((l'.filter fun r => sym r = s).map g).sum :=
    ((h.filter _).map g).sum_eq
  rw [h1, h2]

theorem mem_rangeSummaries_shape {t : Int} {rows : List DailySymbolTotal}
    {x : RangeSymbolSummary} (h : x ∈ rangeSummaries t rows) :
    ∃ r : String × Int × Int, x = mkSummary r := by
  rcases List.mem_map.1 h with ⟨r, _, rfl⟩
  exact ⟨r, rfl⟩

/-! ### Claim theorems -/

/-- C4: for every row of the threshold-filtered range summary, `buyVolume +
sellVolume = totalVolume`; the identity holds (and the computation is
total, hence crash-free) even when `sellVolume` is negative because the
feed reported `shortVolume > totalVolume`. -/
theorem summary_buy_add_sell_eq_total (vol_threshold : Int)
    (rows : List DailySymbolTotal) (x : RangeSymbolSummary)
    (h : x ∈ rangeSummaries vol_threshold rows) :
    x.buyVolume + x.sellVolume = x.totalVolume := by
  rcases mem_rangeSummaries_shape h with ⟨r, rfl⟩
  simp [mkSummary]

/-- C3: for all non-negative integer inputs — `totalVolume = 0` and
`shortVolume = totalVolume` included — the buy/sell ratio of app.py line
119 is a finite, defined value: the divisor is never zero after the
epsilon substitution, a `+inf` result would be clamped to 100.0 and a
`NaN` result replaced by 0.0, and the computation is total (never
raises). -/
theorem buySellRatio_always_finite (shortVolume totalVolume : Int)
    (h1 : 0 ≤ shortVolume) (h2 : 0 ≤ totalVolume) :
    (buySellRatio shortVolume (totalVolume - shortVolume)).isFinite = true := by
  by_cases hs : totalVolume - shortVolume = 0
  · simp only [buySellRatio, hs, if_true, PFloat.div]
    norm_num [PFloat.replaceInf, PFloat.fillna, PFloat.isFinite]
  · have hq : ((totalVolume - shortVolume : Int) : ℚ) ≠ 0 := Int.cast_ne_zero.mpr hs
    push_cast at hq
    simp [buySellRatio, hs, PFloat.div, hq, PFloat.replaceInf, PFloat.fillna,
      PFloat.isFinite]

/-- Witness for C3 at `shortVolume = totalVolume = 7`. -/
theorem buySellRatio_always_finite_w :
    (0 : Int) ≤ 7 ∧ (0 : Int) ≤ 7 ∧
      (buySellRatio 7 (7 - 7)).isFinite = true :=
  ⟨by decide, by decide, buySellRatio_always_finite 7 7 (by decide) (by decide)⟩

/-- Witness for C4 at a row with negative sell volume: one day of
`{N, short=10, total=3}` (feed anomaly `shortVolume > totalVolume`), zero
threshold. -/
theorem summary_buy_add_sell_eq_total_w :
    mkSummary ("N", 10, 3) ∈ rangeSummaries 0 [⟨"N", 10, 3, "2024-01-02"⟩] ∧
      (mkSummary ("N", 10, 3)).buyVolume + (mkSummary ("N", 10, 3)).sellVolume
        = (mkSummary ("N", 10, 3)).totalVolume := by
  have h1 : aggRange [⟨"N", 10, 3, "2024-01-02"⟩] = [("N", 10, 3)] := by decide
  have hmem : mkSummary ("N", 10, 3) ∈ rangeSummaries 0 [⟨"N", 10, 3, "2024-01-02"⟩] := by
    simp [rangeSummaries, h1]
  exact ⟨hmem, summary_buy_add_sell_eq_total 0 _ _ hmem⟩

/-- C1 fails on the code: with threshold 0 a summary row with
`totalVolume = 0` is reachable, and since app.py lines 120-121 carry no
`fillna`, its `BuyPct` and `SellPct` are the `NaN` of `0/0` — an
undefined value, not the `0` the claim requires. -/
theorem pct_zero_total_nan_cex :
    (rangeSummaries 0 [⟨"A", 0, 0, "2024-01-02"⟩]).map (fun x => (x.buyPct, x.sellPct))
      = [(PFloat.nan, PFloat.nan)] ∧ PFloat.nan ≠ PFloat.fin 0 := by
  constructor
  · have h1 : aggRange [⟨"A", 0, 0, "2024-01-02"⟩] = [("A", 0, 0)] := by decide
    simp [rangeSummaries, h1, mkSummary, PFloat.div]
  · decide

/-- C1 (amended): every summary row's `buyPct` and `sellPct` are the
quotients `buyVolume/totalVolume` and `sellVolume/totalVolume` and the
division never faults, but when `totalVolume = 0` (with both volumes 0)
the shares are `NaN` — undefined — rather than 0. -/
theorem summary_pct_formula (vol_threshold : Int) (rows : List DailySymbolTotal)
    (x : RangeSymbolSummary) (h : x ∈ rangeSummaries vol_threshold rows) :
    (x.totalVolume ≠ 0 →
      x.buyPct = .fin ((x.buyVolume : ℚ) / (x.totalVolume : ℚ)) ∧
      x.sellPct = .fin ((x.sellVolume : ℚ) / (x.totalVolume : ℚ))) ∧
    (x.totalVolume = 0 → x.buyVolume = 0 →
      x.buyPct = .nan ∧ x.sellPct = .nan) := by
  rcases mem_rangeSummaries_shape h with ⟨r, rfl⟩
  constructor
  · intro ht
    have ht' : r.2.2 ≠ 0 := by simpa [mkSummary] using ht
    have hq : ((r.2.2 : Int) : ℚ) ≠ 0 := Int.cast_ne_zero.mpr ht'
    simp [mkSummary, PFloat.div, hq]
  · intro ht hb
    have ht' : r.2.2 = 0 := by simpa [mkSummary] using ht
    have hb' : r.2.1 = 0 := by simpa [mkSummary] using hb
    simp [mkSummary, PFloat.div, ht', hb']

/-- Witness for C1 (amended) at one day of `{A, short=3, total=10}`,
zero threshold. -/
theorem summary_pct_formula_w :
    mkSummary ("A", 3, 10) ∈ rangeSummaries 0 [⟨"A", 3, 10, "2024-01-02"⟩] ∧
    (((mkSummary ("A", 3, 10)).totalVolume ≠ 0 →
      (mkSummary ("A", 3, 10)).buyPct
          = .fin (((mkSummary ("A", 3, 10)).buyVolume : ℚ)
              / ((mkSummary ("A", 3, 10)).totalVolume : ℚ)) ∧
      (mkSummary ("A", 3, 10)).sellPct
          = .fin (((mkSummary ("A", 3, 10)).sellVolume : ℚ)
              / ((mkSummary ("A", 3, 10)).totalVolume : ℚ))) ∧
    ((mkSummary ("A", 3, 10)).totalVolume = 0 →
      (mkSummary ("A", 3, 10)).buyVolume = 0 →
      (mkSummary ("A", 3, 10)).buyPct = .nan ∧
      (mkSummary ("A", 3, 10)).sellPct = .nan)) := by
  have h1 : aggRange [⟨"A", 3, 10, "2024-01-02"⟩] = [("A", 3, 10)] := by decide
  have hmem : mkSummary ("A", 3, 10) ∈ rangeSummaries 0 [⟨"A", 3, 10, "2024-01-02"⟩] := by
    simp [rangeSummaries, h1]
  exact ⟨hmem, summary_pct_formula 0 _ _ hmem⟩

/-- C9: the Range Aggregator is an order-independent pure fold: permuting
the `DailySymbolTotal` collection leaves the aggregate unchanged (and, the
function being pure, rerunning it on the same collection yields identical
rows). -/
theorem aggRange_perm_invariant {l l' : List DailySymbolTotal} (h : l.Perm l') :
    aggRange l = aggRange l' :=
  groupSum_perm _ _ _ h

/-- Witness for C9: two days in either order. -/
theorem aggRange_perm_invariant_w :
    ([⟨"B", 1, 2, "2024-01-02"⟩, ⟨"A", 3, 4, "2024-01-03"⟩] : List DailySymbolTotal).Perm
        [⟨"A", 3, 4, "2024-01-03"⟩, ⟨"B", 1, 2, "2024-01-02"⟩] ∧
      aggRange [⟨"B", 1, 2, "2024-01-02"⟩, ⟨"A", 3, 4, "2024-01-03"⟩]
        = aggRange [⟨"A", 3, 4, "2024-01-03"⟩, ⟨"B", 1, 2, "2024-01-02"⟩] :=
  ⟨List.Perm.swap _ _ _, aggRange_perm_invariant (List.Perm.swap _ _ _)⟩

/-- C2 fails on the code: when every day's fetch failed, the
`if all_daily_totals:` block of app.py line 107 (which has no `else`) is
skipped and the run produces nothing at all — `none`, indistinguishable
from not having run — rather than an explicit empty-result value carrying
an unfiltered row count. -/
theorem empty_range_silent_cex :
    runAnalysis 1000000 [none, none, none] = none := by decide

/-- C2 (amended): when zero `DailySymbolTotal` rows are retrievable for
the range (every fetch failed), the pipeline neither raises nor surfaces
an explicit empty-result signal: it silently produces no output, and no
unfiltered row count is reported. -/
theorem runAnalysis_all_failed (vol_threshold : Int)
    (fetched : List (Option (List DailySymbolTotal)))
    (h : ∀ f ∈ fetched, f = none) : runAnalysis vol_threshold fetched = none := by
  have hnil : fetched.filterMap id = [] := List.filterMap_eq_nil_iff.mpr h
  simp [runAnalysis, hnil]

/-- Witness for C2 (amended): a two-day range with both fetches failed. -/
theorem runAnalysis_all_failed_w :
    (∀ f ∈ ([none, none] : List (Option (List DailySymbolTotal))), f = none) ∧
      runAnalysis 5 [none, none] = none :=
  ⟨by decide, runAnalysis_all_failed 5 _ (by decide)⟩

/-- C10: with `sellVolume = 0` and a large `buyVolume` (here `shortVolume
= totalVolume = 1000000`), the epsilon-substituted division yields the
finite value `1000000 / 0.0001 = 10^10`, strictly above the `100.0`
sentinel: the clamp of app.py line 119 applies only to a literal infinite
quotient, so the sentinel is not an upper bound of the reported ratio. -/
theorem buySellRatio_exceeds_sentinel :
    buySellRatio 1000000 (1000000 - 1000000) = .fin 10000000000 ∧
      (100 : ℚ) < 10000000000 := by
  constructor
  · norm_num [buySellRatio, PFloat.div, PFloat.replaceInf, PFloat.fillna]
  · norm_num

/-- The two pressure predicates of app.py lines 140 and 145 cannot both
hold on shares derived from one `(shortVolume, totalVolume)` pair: with a
nonzero total the two shares sum to exactly 1, and with a zero total at
most one share is `+inf` (the other being `-inf` or `NaN`). -/
theorem pct_exclusive (sv tv : Int) :
    ¬(((PFloat.fin (sv : ℚ)).div (.fin (tv : ℚ))).gt (3 / 5) = true ∧
      ((PFloat.fin ((tv - sv : Int) : ℚ)).div (.fin (tv : ℚ))).gt (3 / 5) = true) := by
  rintro ⟨h1, h2⟩
  by_cases htv : tv = 0
  · subst htv
    have hsell : ((0 - sv : Int) : ℚ) = -(sv : ℚ) := by push_cast; ring
    rcases lt_trichotomy ((sv : ℚ)) 0 with hs | hs | hs
    · simp [PFloat.div, PFloat.gt, not_lt_of_gt hs, hs] at h1
    · simp [PFloat.div, PFloat.gt, hs] at h1
    · have hneg : -(sv : ℚ) < 0 := neg_neg_of_pos hs
      simp [PFloat.div, PFloat.gt, hsell, not_lt_of_gt hneg, hneg] at h2
  · have hq : ((tv : Int) : ℚ) ≠ 0 := Int.cast_ne_zero.mpr htv
    simp only [PFloat.div, if_neg hq, PFloat.gt, decide_eq_true_eq] at h1 h2
    have hsum : (sv : ℚ) / (tv : ℚ) + ((tv - sv : Int) : ℚ) / (tv : ℚ) = 1 := by
      push_cast
      field_simp
    linarith

/-- The symbols of the threshold-filtered summary are pairwise distinct:
they are a sub-list of the group-by keys, which are deduplicated. -/
theorem rangeSummaries_symbols_nodup (vol_threshold : Int)
    (rows : List DailySymbolTotal) :
    ((rangeSummaries vol_threshold rows).map (·.symbol)).Nodup := by
  have h1 : (rangeSummaries vol_threshold rows).map (·.symbol)
      = ((aggRange rows).filter fun r => vol_threshold ≤ r.2.2).map Prod.fst := by
    simp only [rangeSummaries, List.map_map]
    exact List.map_congr_left fun r _ => rfl
  rw [h1]
  exact ((List.filter_sublist _).map Prod.fst).nodup (groupSum_nodup_fst _ _ _ _)

/-- Membership in the buy list implies membership in the summary with the
buy-pressure predicate satisfied. -/
theorem mem_buy_list {agg : List RangeSymbolSummary} {x : RangeSymbolSummary}
    (h : x ∈ buy_list agg) : x ∈ agg ∧ x.buyPct.gt (3 / 5) = true := by
  have h1 : x ∈ List.insertionSort (fun a b => b.buyVolume ≤ a.buyVolume)
      (agg.filter fun r => r.buyPct.gt (3 / 5)) := (List.take_sublist _ _).subset h
  have h2 : x ∈ agg.filter fun r => r.buyPct.gt (3 / 5) :=
    (List.perm_insertionSort _ _).mem_iff.mp h1
  exact List.mem_filter.1 h2

/-- Membership in the sell list implies membership in the summary with the
sell-pressure predicate satisfied. -/
theorem mem_sell_list {agg : List RangeSymbolSummary} {x : RangeSymbolSummary}
    (h : x ∈ sell_list agg) : x ∈ agg ∧ x.sellPct.gt (3 / 5) = true := by
  have h1 : x ∈ List.insertionSort (fun a b => b.sellVolume ≤ a.sellVolume)
      (agg.filter fun r => r.sellPct.gt (3 / 5)) := (List.take_sublist _ _).subset h
  have h2 : x ∈ agg.filter fun r => r.sellPct.gt (3 / 5) :=
    (List.perm_insertionSort _ _).mem_iff.mp h1
  exact List.mem_filter.1 h2

/-- C6: in one run a symbol appears in at most one of the two top lists:
the predicates `BuyPct > 0.60` and `SellPct > 0.60` are mutually exclusive
over every threshold-filtered summary row — rows with zero or negative
sell volume included — and each symbol has exactly one summary row. -/
theorem buy_sell_lists_exclusive (vol_threshold : Int)
    (rows : List DailySymbolTotal) (sym : String)
    (h : sym ∈ (buy_list (rangeSummaries vol_threshold rows)).map (·.symbol)) :
    sym ∉ (sell_list (rangeSummaries vol_threshold rows)).map (·.symbol) := by
  intro h'
  rcases List.mem_map.1 h with ⟨x, hx, rfl⟩
  rcases List.mem_map.1 h' with ⟨y, hy, hsym⟩
  have hxm := mem_buy_list hx
  have hym := mem_sell_list hy
  have hxy : y = x :=
    List.inj_on_of_nodup_map (rangeSummaries_symbols_nodup _ _) hym.1 hxm.1 hsym
  rcases mem_rangeSummaries_shape hxm.1 with ⟨r, hr⟩
  refine pct_exclusive r.2.1 r.2.2 ⟨?_, ?_⟩
  · have := hxm.2
    rw [hr] at this
    simpa [mkSummary] using this
  · have := hym.2
    rw [hxy, hr] at this
    simpa [mkSummary] using this

/-- Witness for C6: one day of `{B, short=9, total=10}` puts `B` on the
buy list (`buyPct = 0.9`), hence not on the sell list. -/
theorem buy_sell_lists_exclusive_w :
    "B" ∈ (buy_list (rangeSummaries 0 [⟨"B", 9, 10, "2024-01-02"⟩])).map (·.symbol) ∧
      "B" ∉ (sell_list (rangeSummaries 0 [⟨"B", 9, 10, "2024-01-02"⟩])).map (·.symbol) := by
  have h1 : aggRange [⟨"B", 9, 10, "2024-01-02"⟩] = [("B", 9, 10)] := by decide
  have hsumm : rangeSummaries 0 [⟨"B", 9, 10, "2024-01-02"⟩]
      = [mkSummary ("B", 9, 10)] := by
    simp [rangeSummaries, h1]
  have hgt : (mkSummary ("B", 9, 10)).buyPct.gt (3 / 5) = true := by
    norm_num [mkSummary, PFloat.div, PFloat.gt]
  have hfil : List.filter (fun r => r.buyPct.gt (3 / 5)) [mkSummary ("B", 9, 10)]
      = [mkSummary ("B", 9, 10)] := by
    simp [List.filter_cons, hgt]
  have hmem : "B" ∈ (buy_list (rangeSummaries 0 [⟨"B", 9, 10, "2024-01-02"⟩])).map (·.symbol) := by
    rw [hsumm]
    simp only [buy_list, hfil]
    simp [List.insertionSort, List.orderedInsert, mkSummary]
  exact ⟨hmem, buy_sell_lists_exclusive 0 _ _ hmem⟩

/-- C5: Scenario 3 — facilities `{XYZ, short=100, total=200}` and
`{XYZ, short=50, total=50}` on one day reconcile to the single row
`{XYZ, short=150, total=250}`; its `buyPct` is exactly `0.60`, which does
not satisfy the strict `> 0.60` filter, so `XYZ` reaches neither top
list (threshold 0, so volume filtering does not interfere). -/
theorem scenario3_boundary :
    fetch_daily_components "20240102"
        [some [⟨some "XYZ", .num 100, .num 200⟩], some [⟨some "XYZ", .num 50, .num 50⟩]]
      = some [⟨"XYZ", 150, 250, "2024-01-02"⟩] ∧
    (rangeSummaries 0 [⟨"XYZ", 150, 250, "2024-01-02"⟩]).map (·.buyPct)
      = [.fin (3 / 5)] ∧
    "XYZ" ∉ (buy_list (rangeSummaries 0 [⟨"XYZ", 150, 250, "2024-01-02"⟩])).map (·.symbol) ∧
    "XYZ" ∉ (sell_list (rangeSummaries 0 [⟨"XYZ", 150, 250, "2024-01-02"⟩])).map (·.symbol) := by
  have h1 : aggRange [⟨"XYZ", 150, 250, "2024-01-02"⟩] = [("XYZ", 150, 250)] := by decide
  have hsumm : rangeSummaries 0 [⟨"XYZ", 150, 250, "2024-01-02"⟩]
      = [mkSummary ("XYZ", 150, 250)] := by
    simp [rangeSummaries, h1]
  have hbuy : (mkSummary ("XYZ", 150, 250)).buyPct.gt (3 / 5) = false := by
    norm_num [mkSummary, PFloat.div, PFloat.gt]
  have hsell : (mkSummary ("XYZ", 150, 250)).sellPct.gt (3 / 5) = false := by
    norm_num [mkSummary, PFloat.div, PFloat.gt]
  refine ⟨by decide, ?_, ?_, ?_⟩
  · rw [hsumm]
    norm_num [mkSummary, PFloat.div]
  · rw [hsumm]
    simp [buy_list, List.filter, hbuy]
  · rw [hsumm]
    simp [sell_list, List.filter, hsell]

/-- The parser never drops a row that has a symbol: it emits exactly one
record per symboled input row. -/
theorem parseRecords_length (rows : List RawRow) :
    (parseRecords rows).length = (rows.filter fun r => r.symbol.isSome).length := by
  induction rows with
  | nil => rfl
  | cons a t ih =>
    cases ha : a.symbol with
    | none => simpa [parseRecords, List.filterMap_cons, List.filter_cons, ha] using ih
    | some s => simpa [parseRecords, List.filterMap_cons, List.filter_cons, ha] using ih

/-- C8 fails on the code: `pd.to_numeric(..., errors='coerce').fillna(0)`
passes a negative numeric cell through unchanged, so the parser does not
guarantee non-negative volumes. -/
theorem parse_negative_cell_cex :
    parseRecords [⟨some "BAD", .num (-5), .num 10⟩] = [⟨"BAD", -5, 10⟩] ∧
      ¬((0 : Int) ≤ -5) := by decide

/-- C8 (amended): every symboled row survives the parse — with its two
volume cells coerced by `toNumeric`, which maps non-numeric and missing
cells to 0 but keeps negative numeric values — and no malformed cell
discards a row or the rest of the file: the output has exactly one record
per symboled input row. -/
theorem parseRecords_preserves_rows (rows : List RawRow) (raw : RawRow)
    (s : String) (hmem : raw ∈ rows) (hsym : raw.symbol = some s) :
    (⟨s, toNumeric raw.shortVolume, toNumeric raw.totalVolume⟩ : FacilityRecord)
        ∈ parseRecords rows ∧
      (parseRecords rows).length = (rows.filter fun r => r.symbol.isSome).length :=
  ⟨List.mem_filterMap.2 ⟨raw, hmem, by simp [hsym]⟩, parseRecords_length rows⟩

/-- Witness for C8 (amended): a file whose first row has malformed cells
and whose second row lacks a symbol. -/
theorem parseRecords_preserves_rows_w :
    (⟨some "OK", Cell.nonNumeric, Cell.missing⟩ : RawRow)
        ∈ ([⟨some "OK", Cell.nonNumeric, Cell.missing⟩,
            ⟨none, Cell.num 3, Cell.num 4⟩] : List RawRow) ∧
      (⟨some "OK", Cell.nonNumeric, Cell.missing⟩ : RawRow).symbol = some "OK" ∧
      ((⟨"OK", toNumeric Cell.nonNumeric, toNumeric Cell.missing⟩ : FacilityRecord)
          ∈ parseRecords [⟨some "OK", Cell.nonNumeric, Cell.missing⟩,
              ⟨none, Cell.num 3, Cell.num 4⟩] ∧
        (parseRecords [⟨some "OK", Cell.nonNumeric, Cell.missing⟩,
            ⟨none, Cell.num 3, Cell.num 4⟩]).length
          = (List.filter (fun r => r.symbol.isSome)
              ([⟨some "OK", Cell.nonNumeric, Cell.missing⟩,
                ⟨none, Cell.num 3, Cell.num 4⟩] : List RawRow)).length) :=
  ⟨by decide, by decide,
    parseRecords_preserves_rows
      [⟨some "OK", Cell.nonNumeric, Cell.missing⟩, ⟨none, Cell.num 3, Cell.num 4⟩]
      ⟨some "OK", Cell.nonNumeric, Cell.missing⟩ "OK" (by decide) (by decide)⟩

end DarkPool
